import Mathlib

/-!
Verification of `cybersec/bruteforce.py` (open-utils).

Shallow embedding of the combination-search engine: configuration tables,
algorithm resolution (`get_algorithms`), per-unit combination checking
(`check_combination`), work-unit generation (the `tasks` list comprehension
of `attack_hash`), the sequential wordlist loop of `attack_hash` with its
result records and persistence, and the per-target loop of the entry point.

The digest engine (`hash_string`, a thin wrapper over the external `hashlib`
library) is modelled as an explicit function parameter `hash_string :
String → String → String`: the code under verification never inspects it
beyond calling it, and the `shake_*` 16-byte truncation is folded into it.
File-system reads are modelled by passing each wordlist as
`Option (List String)`: `none` for a missing file (the `os.path.exists`
check fails and the wordlist is skipped), `some lines` for the raw lines
read from the file.  The worker pool (`Pool.imap_unordered`) is modelled by
a deterministic sequential scan of the dispatched unit list of the current
wordlist, stopping at the first match, which is a refinement of the
unordered pool: the pool only ever evaluates units of the wordlist whose
task list was dispatched, and `pool.terminate()` plus `return True` stop
the wordlist loop at the first truthy result.
-/

namespace Bruteforce

/-- The `HASH_ALGORITHMS` list (lines 69–73 of bruteforce.py). -/
def HASH_ALGORITHMS : List String :=
  ["md5", "sha1", "sha256", "sha512", "sha3_256", "sha3_512",
   "sha224", "sha384", "blake2b", "blake2s", "sha3_224",
   "sha3_384", "shake_128", "shake_256"]

/-- The `HASH_LENGTH_MAP` dict (lines 75–82), as an association list. -/
def HASH_LENGTH_MAP : List (Nat × List String) :=
  [(32, ["md5"]),
   (40, ["sha1"]),
   (56, ["sha224"]),
   (64, ["sha256", "sha3_256", "blake2s"]),
   (96, ["sha384", "sha3_384"]),
   (128, ["sha512", "sha3_512", "blake2b"])]

/-- `get_algorithms(algo, hash_length)` (lines 143–148).  Python truthiness:
`if algo:` is false for `None` and for the empty string; `if hash_length`
is false for `None` and for `0`. -/
def get_algorithms (algo : Option String) (hash_length : Option Nat) : List String :=
  if algo.getD "" ≠ "" then [algo.getD ""]
  else if hash_length.getD 0 ≠ 0 then
    (HASH_LENGTH_MAP.lookup (hash_length.getD 0)).getD HASH_ALGORITHMS
  else HASH_ALGORITHMS

/-- One work unit: the tuple `(password, salt, algorithm, target_hash, mode)`
built by the `tasks` comprehension (lines 196–201). -/
structure Task where
  password : String
  salt : String
  algorithm : String
  target_hash : String
  mode : String
deriving DecidableEq, Repr

/-- The concatenation candidates a unit tests (lines 172–176): `password+salt`
when mode is `ps` or `both`, `salt+password` when mode is `sp` or `both`. -/
def combosOf (mode password salt : String) : List String :=
  (if mode = "ps" ∨ mode = "both" then [password ++ salt] else []) ++
  (if mode = "sp" ∨ mode = "both" then [salt ++ password] else [])

/-- `check_combination(task)` (lines 170–182): hash each candidate
concatenation and compare for exact string equality against the target;
return the first matching concatenation with its algorithm, else nothing. -/
def check_combination (hash_string : String → String → String) (task : Task) :
    Option (String × String) :=
  (combosOf task.mode task.password task.salt).findSome? fun combo =>
    if hash_string combo task.algorithm = task.target_hash then
      some (combo, task.algorithm)
    else none

/-- The `tasks` list comprehension of `attack_hash` (lines 196–201):
`for algo in algos for pwd in words for salt in words`. -/
def mkTasks (algos words : List String) (target_hash mode : String) : List Task :=
  algos.flatMap fun algo => words.flatMap fun pwd => words.map fun salt =>
    { password := pwd, salt := salt, algorithm := algo,
      target_hash := target_hash, mode := mode }

/-- All concatenation candidates tested over a task list: each unit tests
the candidates of `combosOf` for its mode, password and salt. -/
def testedCombos (algos words : List String) (target_hash mode : String) : List String :=
  (mkTasks algos words target_hash mode).flatMap fun t =>
    combosOf t.mode t.password t.salt

/-- Python `str.strip()` on a character list: drop whitespace from both ends. -/
def stripChars (l : List Char) : List Char :=
  ((l.dropWhile Char.isWhitespace).reverse.dropWhile Char.isWhitespace).reverse

/-- Python `line.strip()` (executable model of `str.strip`). -/
def strip (s : String) : String := String.mk (stripChars s.toList)

/-- The wordlist load of `attack_hash` (line 191):
`words = [line.strip() for line in f if line.strip()]`. -/
def loadWords (lines : List String) : List String :=
  (lines.map fun line => strip line).filter fun line => line ≠ ""

/-- Deterministic model of the pool scan over one wordlist's dispatched
units: evaluate units in order, stop at the first non-empty result
(`pool.terminate()`); return the result and the list of evaluated units. -/
def runTasks (hash_string : String → String → String) :
    List Task → Option (String × String) × List Task
  | [] => (none, [])
  | t :: ts =>
    match check_combination hash_string t with
    | some r => (some r, [t])
    | none =>
      let rest := runTasks hash_string ts
      (rest.1, t :: rest.2)

/-- A JSON value as written by `write_json` for this tool's records. -/
inductive JVal where
  | bool : Bool → JVal
  | str : String → JVal
  | num : Rat → JVal
deriving DecidableEq, Repr

/-- The JSON document written on a match (lines 215–222), as an ordered
field list. -/
def foundRecord (target_hash algo full_password generated : String)
    (elapsed : Rat) : List (String × JVal) :=
  [("found", JVal.bool true),
   ("hash", JVal.str target_hash),
   ("algorithm", JVal.str algo),
   ("password", JVal.str full_password),
   ("generated", JVal.str generated),
   ("elapsed_seconds", JVal.num elapsed)]

/-- The JSON document written on exhaustion (lines 229–234). -/
def notFoundRecord (target_hash : String) (elapsed : Rat) : List (String × JVal) :=
  [("found", JVal.bool false),
   ("hash", JVal.str target_hash),
   ("reason", JVal.str "No match found"),
   ("elapsed_seconds", JVal.num elapsed)]

/-- Reporter configuration: `save_file`/`json_file` model whether the
corresponding output path option is set; `save_fails`/`json_fails` model
whether the underlying file write raises an exception; `timestamp` is the
external clock value used by `write_result`; `elapsed` the rounded
`time() - start_time` value used in JSON records. -/
structure ReportConfig where
  save_file : Bool
  json_file : Bool
  save_fails : Bool
  json_fails : Bool
  timestamp : String
  elapsed : Rat
deriving DecidableEq, Repr

/-- `write_result` (lines 153–160): append a text record; any exception is
caught and turned into a warning.  Returns the appended record (if the
write succeeded) and the warnings logged. -/
def write_result (write_fails : Bool) (timestamp algo full_password generated : String) :
    Option String × List String :=
  if write_fails then (none, ["Could not save result"])
  else (some (timestamp ++ " [" ++ algo.toUpper ++ "] " ++ full_password ++ " → " ++ generated), [])

/-- `write_json` (lines 162–168): overwrite the JSON file with the record;
any exception is caught and turned into a warning. -/
def write_json (write_fails : Bool) (data : List (String × JVal)) :
    Option (List (String × JVal)) × List String :=
  if write_fails then (none, ["Could not save JSON"])
  else (some data, [])

/-- The observable outcome of one `attack_hash` call: the returned boolean,
the recorded match, the result-report console lines, the units evaluated by
the pools, and the persisted outputs with the warnings logged. -/
structure AttackOutcome where
  found : Bool
  matched : Option (String × String)
  console : List String
  evaluated : List Task
  savedText : Option String
  savedJson : Option (List (String × JVal))
  warnings : List String
deriving DecidableEq, Repr

/-- `attack_hash` (lines 185–235): iterate wordlists in order; skip missing
files; load and filter each wordlist; build the task list; scan it, and on
the first match report success, persist (when configured) and return
immediately; after the last wordlist report not-found. -/
def attack_hash (hash_string : String → String → String) (target_hash : String)
    (wordlists : List (Option (List String))) (algos : List String) (mode : String)
    (cfg : ReportConfig) : AttackOutcome :=
  match wordlists with
  | [] =>
    let json := if cfg.json_file then
        write_json cfg.json_fails (notFoundRecord target_hash cfg.elapsed)
      else (none, [])
    { found := false, matched := none,
      console := ["Hash " ++ target_hash ++ " not found."],
      evaluated := [], savedText := none, savedJson := json.1, warnings := json.2 }
  | none :: rest => attack_hash hash_string target_hash rest algos mode cfg
  | some lines :: rest =>
    let words := loadWords lines
    let tasks := mkTasks algos words target_hash mode
    match runTasks hash_string tasks with
    | (some (full_password, algo), evaluated) =>
      let generated := hash_string full_password algo
      let text := if cfg.save_file then
          write_result cfg.save_fails cfg.timestamp algo full_password generated
        else (none, [])
      let json := if cfg.json_file then
          write_json cfg.json_fails
            (foundRecord target_hash algo full_password generated cfg.elapsed)
        else (none, [])
      { found := true, matched := some (full_password, algo),
        console := ["SUCCESS! (" ++ algo.toUpper ++ ")",
                    "Full password: " ++ full_password,
                    "Generated Hash: " ++ generated],
        evaluated := evaluated, savedText := text.1, savedJson := json.1,
        warnings := text.2 ++ json.2 }
    | (none, evaluated) =>
      let out := attack_hash hash_string target_hash rest algos mode cfg
      { out with evaluated := evaluated ++ out.evaluated }

/-- Every unit of every existing wordlist, in dispatch order: the full
work-unit space scanned by an exhausted attack. -/
def allTasks (target_hash : String) (wordlists : List (Option (List String)))
    (algos : List String) (mode : String) : List Task :=
  wordlists.flatMap fun w =>
    match w with
    | none => []
    | some lines => mkTasks algos (loadWords lines) target_hash mode

/-- The lowercase hex alphabet: the character range of `hexdigest()` output. -/
def LOWER_HEX_DIGITS : List Char := "0123456789abcdef".toList

/-- The uppercase hex letters. -/
def UPPER_HEX_LETTERS : List Char := "ABCDEF".toList

/-- The hex alphabet accepted by the per-target validation (line 276):
`"0123456789abcdefABCDEF"`. -/
def HEX_DIGITS : List Char := LOWER_HEX_DIGITS ++ UPPER_HEX_LETTERS

/-- The per-target hex validation (line 276):
`all(c in "0123456789abcdefABCDEF" for c in target_hash)`. -/
def isHexTarget (t : String) : Prop := ∀ c ∈ t.toList, c ∈ HEX_DIGITS

instance (t : String) : Decidable (isHexTarget t) :=
  List.decidableBAll _ t.toList

/-- A string made of lowercase hex characters only, as every `hexdigest()`
result is. -/
def isLowerHex (s : String) : Prop := ∀ c ∈ s.toList, c ∈ LOWER_HEX_DIGITS

instance (s : String) : Decidable (isLowerHex s) :=
  List.decidableBAll _ s.toList

/-- A string containing at least one uppercase hex letter. -/
def hasUpperHexLetter (t : String) : Prop := ∃ c ∈ t.toList, c ∈ UPPER_HEX_LETTERS

instance (t : String) : Decidable (hasUpperHexLetter t) :=
  List.decidableBEx _ t.toList

/-- What the per-target loop (lines 269–289) does with one target hash:
skip it at the length check, skip it at the hex check, or run
`attack_hash` on it with the per-target algorithm set. -/
inductive TargetAction where
  | skippedLength : String → TargetAction
  | skippedHex : String → TargetAction
  | attacked : String → List String → AttackOutcome → TargetAction
deriving DecidableEq, Repr

/-- The body of the per-target loop (lines 269–289): infer the algorithm
set from the target's literal length, skip if that set is empty, skip if
the target is not a hex string, otherwise attack. -/
def process_target (hash_string : String → String → String) (algo : Option String)
    (wordlists : List (Option (List String))) (mode : String) (cfg : ReportConfig)
    (target_hash : String) : TargetAction :=
  let hash_algos := get_algorithms algo (some target_hash.length)
  if hash_algos = [] then TargetAction.skippedLength target_hash
  else if isHexTarget target_hash then
    TargetAction.attacked target_hash hash_algos
      (attack_hash hash_string target_hash wordlists hash_algos mode cfg)
  else TargetAction.skippedHex target_hash

/-- The entry point after input collection (lines 247 and 269–289): line 247
computes `algos = get_algorithms(args.algo, args.hash_length)` — the first
component, which the per-target loop never reads — and then processes each
target with an algorithm set re-inferred from that target's literal length. -/
def main_run (hash_string : String → String → String) (algo : Option String)
    (hash_length : Option Nat) (targets : List String)
    (wordlists : List (Option (List String))) (mode : String) (cfg : ReportConfig) :
    List String × List TargetAction :=
  (get_algorithms algo hash_length,
   targets.map (process_target hash_string algo wordlists mode cfg))

/-- A concrete stand-in digest engine for closed evaluations: the digest of
a string is the string itself. -/
def hs0 : String → String → String := fun combo _ => combo

/-- A concrete reporter configuration for closed evaluations. -/
def cfg0 : ReportConfig :=
  { save_file := false, json_file := false, save_fails := false,
    json_fails := false, timestamp := "T", elapsed := 0 }

/-! ## Helper lemmas -/

/-- Any property holding of every value of an association list holds of any
successful lookup result. -/
theorem lookup_forall {α β : Type} [BEq α] (P : β → Prop) :
    ∀ (l : List (α × β)), (∀ p ∈ l, P p.2) → ∀ a b, l.lookup a = some b → P b := by
  intro l hl a b
  induction l with
  | nil => simp [List.lookup]
  | cons p es ih =>
    rw [List.lookup]
    split
    · intro h
      cases h
      exact hl p (by simp)
    · exact ih fun q hq => hl q (by simp [hq])

/-- The algorithm resolver never returns the empty set: a forced algorithm
gives a singleton, a mapped length gives a non-empty table entry, and
everything else falls back to the full supported set. -/
theorem get_algorithms_ne_nil (algo : Option String) (hash_length : Option Nat) :
    get_algorithms algo hash_length ≠ [] := by
  unfold get_algorithms
  split
  · simp
  · split
    · rcases h : HASH_LENGTH_MAP.lookup (hash_length.getD 0) with _ | l
      · simpa [h] using (by decide : HASH_ALGORITHMS ≠ [])
      · have : l ≠ [] := by
          refine lookup_forall (fun v => v ≠ []) HASH_LENGTH_MAP ?_ _ _ h
          decide
        simpa [h] using this
    · decide

/-- The sequential unit scan returns nothing exactly when no unit matches. -/
theorem runTasks_fst_eq_none_iff (hash_string : String → String → String)
    (ts : List Task) :
    (runTasks hash_string ts).1 = none ↔
      ∀ t ∈ ts, check_combination hash_string t = none := by
  induction ts with
  | nil => simp [runTasks]
  | cons t ts ih =>
    rw [runTasks]
    rcases h : check_combination hash_string t with _ | r
    · simpa [h] using ih
    · simp [h]

/-- When no unit matches, the sequential scan evaluates every unit. -/
theorem runTasks_of_no_match (hash_string : String → String → String)
    (ts : List Task) (h : ∀ t ∈ ts, check_combination hash_string t = none) :
    runTasks hash_string ts = (none, ts) := by
  induction ts with
  | nil => simp [runTasks]
  | cons t ts ih =>
    rw [runTasks, h t (by simp), ih fun u hu => h u (by simp [hu])]

/-- Every generated work unit carries the target hash and mode it was built
with. -/
theorem mem_mkTasks (algos words : List String) (target_hash mode : String)
    (t : Task) (h : t ∈ mkTasks algos words target_hash mode) :
    t.target_hash = target_hash ∧ t.mode = mode ∧
      t.algorithm ∈ algos ∧ t.password ∈ words ∧ t.salt ∈ words := by
  simp only [mkTasks, List.mem_flatMap, List.mem_map] at h
  obtain ⟨algo, ha, pwd, hp, salt, hs, rfl⟩ := h
  exact ⟨rfl, rfl, ha, hp, hs⟩

/-- When no unit of any existing wordlist matches, the attack reports
not-found after evaluating the full work-unit space, and writes the
not-found JSON record when configured. -/
theorem attack_hash_no_match (hash_string : String → String → String)
    (target_hash : String) (wordlists : List (Option (List String)))
    (algos : List String) (mode : String) (cfg : ReportConfig)
    (h : ∀ t ∈ allTasks target_hash wordlists algos mode,
          check_combination hash_string t = none) :
    attack_hash hash_string target_hash wordlists algos mode cfg =
      { found := false, matched := none,
        console := ["Hash " ++ target_hash ++ " not found."],
        evaluated := allTasks target_hash wordlists algos mode,
        savedText := none,
        savedJson := (if cfg.json_file then
            write_json cfg.json_fails (notFoundRecord target_hash cfg.elapsed)
          else (none, [])).1,
        warnings := (if cfg.json_file then
            write_json cfg.json_fails (notFoundRecord target_hash cfg.elapsed)
          else (none, [])).2 } := by
  induction wordlists with
  | nil => rw [attack_hash]; simp [allTasks]
  | cons w rest ih =>
    rcases w with _ | lines
    · rw [attack_hash]
      rw [ih fun t ht => h t (by simpa [allTasks] using ht)]
      simp [allTasks]
    · rw [attack_hash]
      have hw : ∀ t ∈ mkTasks algos (loadWords lines) target_hash mode,
          check_combination hash_string t = none := fun t ht =>
        h t (by simp [allTasks, ht])
      rw [runTasks_of_no_match hash_string _ hw]
      rw [ih fun t ht => h t (by simp [allTasks]; right; simpa [allTasks] using ht)]
      simp [allTasks]

/-- With a single algorithm, the task comprehension produces exactly
`|words|²` work units: one per ordered (password, salt) pair. -/
theorem mkTasks_singleton_length (algo target_hash mode : String) (words : List String) :
    (mkTasks [algo] words target_hash mode).length = words.length ^ 2 := by
  simp [mkTasks, List.length_flatMap, Function.comp_def, List.map_const]
  ring

/-- Under mode `both`, the tested concatenations over one algorithm are
exactly the strings `p ++ s` and `s ++ p` for ordered pairs of words. -/
theorem mem_testedCombos_both (algo target_hash : String) (words : List String)
    (c : String) :
    c ∈ testedCombos [algo] words target_hash "both" ↔
      ∃ p ∈ words, ∃ s ∈ words, c = p ++ s ∨ c = s ++ p := by
  simp only [testedCombos, mkTasks, List.mem_flatMap, List.mem_map, List.mem_singleton]
  constructor
  · rintro ⟨t, ⟨a, rfl, pwd, hp, salt, hs, rfl⟩, hc⟩
    simp [combosOf] at hc
    exact ⟨pwd, hp, salt, hs, by tauto⟩
  · rintro ⟨p, hp, s, hs, hc⟩
    refine ⟨{ password := p, salt := s, algorithm := algo,
              target_hash := target_hash, mode := "both" }, ⟨algo, rfl, p, hp, s, hs, rfl⟩, ?_⟩
    simp [combosOf]
    tauto

/-! ## Claims -/

/-- C1: for every wordlist and mode `both`, the candidate concatenations
tested are exactly the strings `password ++ salt` and `salt ++ password`
over every ordered pair of words including self-pairs; for the wordlist
`["abc", "123"]` the tested concatenations include `"abc123"`, `"123abc"`,
`"abcabc"` and `"123123"`; and the number of (password, salt) work units
per algorithm is `|words|²`. -/
theorem C1_combination_exhaustiveness :
    (∀ (algo target_hash : String) (words : List String) (c : String),
      c ∈ testedCombos [algo] words target_hash "both" ↔
        ∃ p ∈ words, ∃ s ∈ words, c = p ++ s ∨ c = s ++ p)
    ∧ ("abc123" ∈ testedCombos ["md5"] ["abc", "123"] "5f4d" "both"
        ∧ "123abc" ∈ testedCombos ["md5"] ["abc", "123"] "5f4d" "both"
        ∧ "abcabc" ∈ testedCombos ["md5"] ["abc", "123"] "5f4d" "both"
        ∧ "123123" ∈ testedCombos ["md5"] ["abc", "123"] "5f4d" "both")
    ∧ (∀ (algo target_hash mode : String) (words : List String),
        (mkTasks [algo] words target_hash mode).length = words.length ^ 2) :=
  ⟨mem_testedCombos_both, by decide, mkTasks_singleton_length⟩

/-- C4: a forced algorithm always resolves to its singleton regardless of
length; length 32 resolves to `{md5}`; length 64 to
`{sha256, sha3_256, blake2s}`; an unmapped length resolves to the full
supported set. -/
theorem C4_algorithm_resolution :
    (∀ (a : String) (hash_length : Option Nat), a ≠ "" →
      get_algorithms (some a) hash_length = [a])
    ∧ get_algorithms none (some 32) = ["md5"]
    ∧ get_algorithms none (some 64) = ["sha256", "sha3_256", "blake2s"]
    ∧ (∀ n : Nat, HASH_LENGTH_MAP.lookup n = none →
        get_algorithms none (some n) = HASH_ALGORITHMS) := by
  refine ⟨?_, by decide, by decide, ?_⟩
  · intro a hash_length ha
    simp [get_algorithms, ha]
  · intro n hn
    rcases Nat.eq_zero_or_pos n with rfl | hpos
    · decide
    · simp [get_algorithms, Nat.pos_iff_ne_zero.mp hpos, hn]

/-- C4 witness: forced `sha1` wins over length 32, and the unmapped
length 33 yields the full supported set. -/
theorem C4_witness :
    get_algorithms (some "sha1") (some 32) = ["sha1"]
    ∧ get_algorithms none (some 33) = HASH_ALGORITHMS :=
  ⟨C4_algorithm_resolution.1 "sha1" (some 32) (by decide),
   C4_algorithm_resolution.2.2.2 33 (by decide)⟩

/-- C5 counterexample: the claim says that with mode `ps` over the wordlist
`["abc", "123"]` the concatenation `"123abc"` is never tested; but the
cross product contains the ordered pair (password `"123"`, salt `"abc"`),
whose unit tests exactly `"123" ++ "abc" = "123abc"` under mode `ps`. -/
theorem C5_counterexample :
    "123abc" ∈ testedCombos ["md5"] ["abc", "123"] "5f4d" "ps" := by decide

/-- C5 (amended): mode `ps` restricts each work unit to the single
concatenation `password ++ salt` and mode `sp` to `salt ++ password`; but
because the shared wordlist's cross product contains both orderings of
every pair, `"abc123"` and `"123abc"` are each tested under both modes
over the wordlist `["abc", "123"]`. -/
theorem C5_mode_restriction_amended :
    (∀ password salt : String, combosOf "ps" password salt = [password ++ salt])
    ∧ (∀ password salt : String, combosOf "sp" password salt = [salt ++ password])
    ∧ ("abc123" ∈ testedCombos ["md5"] ["abc", "123"] "5f4d" "ps"
        ∧ "123abc" ∈ testedCombos ["md5"] ["abc", "123"] "5f4d" "ps")
    ∧ ("123abc" ∈ testedCombos ["md5"] ["abc", "123"] "5f4d" "sp"
        ∧ "abc123" ∈ testedCombos ["md5"] ["abc", "123"] "5f4d" "sp") := by
  refine ⟨fun password salt => by simp [combosOf],
    fun password salt => by simp [combosOf], by decide, by decide⟩

/-- When some unit of the first wordlist matches, the attack's outcome does
not depend on the remaining wordlists, and it reports found. -/
theorem attack_hash_cons_match (hash_string : String → String → String)
    (target_hash : String) (w : List String) (rest : List (Option (List String)))
    (algos : List String) (mode : String) (cfg : ReportConfig)
    (h : ∃ t ∈ mkTasks algos (loadWords w) target_hash mode,
          (check_combination hash_string t).isSome = true) :
    attack_hash hash_string target_hash (some w :: rest) algos mode cfg
      = attack_hash hash_string target_hash [some w] algos mode cfg
    ∧ (attack_hash hash_string target_hash (some w :: rest) algos mode cfg).found = true := by
  have hsome : (runTasks hash_string (mkTasks algos (loadWords w) target_hash mode)).1 ≠ none := by
    rw [Ne, runTasks_fst_eq_none_iff]
    obtain ⟨t, ht, hc⟩ := h
    intro hall
    rw [hall t ht] at hc
    simp at hc
  rcases hr : runTasks hash_string (mkTasks algos (loadWords w) target_hash mode) with ⟨r, ev⟩
  rcases r with _ | ⟨fp, algo⟩
  · rw [hr] at hsome
    simp at hsome
  · constructor
    · simp only [attack_hash, hr]
    · simp only [attack_hash, hr]

/-- C2: as soon as some work unit of a wordlist yields a match, the attack
records that match, reports found, and terminates without scanning any
further wordlist: the whole observable outcome (including the list of
evaluated units) is the same as if the later wordlists did not exist. -/
theorem C2_early_termination (hash_string : String → String → String)
    (target_hash : String) (wl1 wl2 : List (Option (List String))) (w : List String)
    (algos : List String) (mode : String) (cfg : ReportConfig)
    (h : ∃ t ∈ mkTasks algos (loadWords w) target_hash mode,
          (check_combination hash_string t).isSome = true) :
    attack_hash hash_string target_hash (wl1 ++ some w :: wl2) algos mode cfg
      = attack_hash hash_string target_hash (wl1 ++ [some w]) algos mode cfg
    ∧ (attack_hash hash_string target_hash (wl1 ++ some w :: wl2) algos mode cfg).found = true := by
  induction wl1 with
  | nil => simpa using attack_hash_cons_match hash_string target_hash w wl2 algos mode cfg h
  | cons a wl1 ih =>
    rcases a with _ | lines
    · simpa only [List.cons_append, attack_hash] using ih
    · rcases hr : runTasks hash_string (mkTasks algos (loadWords lines) target_hash mode) with ⟨r, ev⟩
      rcases r with _ | ⟨fp, algo⟩
      · constructor
        · simp only [List.cons_append, attack_hash, hr, List.append_eq, ih.1]
        · simp only [List.cons_append, attack_hash, hr]
          exact ih.2
      · constructor
        · simp only [List.cons_append, attack_hash, hr]
        · simp only [List.cons_append, attack_hash, hr]

/-- C2 witness: with the identity digest engine, target `"abc123"` and the
matching wordlist `["abc", "123"]` in second position, a later wordlist
`["zzz"]` does not change the outcome and the attack reports found. -/
theorem C2_witness :
    attack_hash hs0 "abc123" ([none] ++ some ["abc", "123"] :: [some ["zzz"]]) ["md5"] "both" cfg0
      = attack_hash hs0 "abc123" ([none] ++ [some ["abc", "123"]]) ["md5"] "both" cfg0
    ∧ (attack_hash hs0 "abc123"
        ([none] ++ some ["abc", "123"] :: [some ["zzz"]]) ["md5"] "both" cfg0).found = true :=
  C2_early_termination hs0 "abc123" [none] [some ["zzz"]] ["abc", "123"] ["md5"] "both" cfg0
    (by decide)

/-- C3: when no unit of any existing wordlist hashes to the target under
any candidate algorithm, the attack returns found = false, and only after
the full work-unit space — every (password, salt, algorithm) unit of every
existing wordlist — has been evaluated. -/
theorem C3_exhaustion (hash_string : String → String → String)
    (target_hash : String) (wordlists : List (Option (List String)))
    (algos : List String) (mode : String) (cfg : ReportConfig)
    (h : ∀ t ∈ allTasks target_hash wordlists algos mode,
          check_combination hash_string t = none) :
    (attack_hash hash_string target_hash wordlists algos mode cfg).found = false
    ∧ (attack_hash hash_string target_hash wordlists algos mode cfg).evaluated
        = allTasks target_hash wordlists algos mode := by
  rw [attack_hash_no_match hash_string target_hash wordlists algos mode cfg h]
  exact ⟨rfl, rfl⟩

/-- C3 witness: target `"zz"` is no concatenation over `["abc", "123"]`
under the identity digest engine, so the attack reports not-found after
evaluating every unit of the one existing wordlist. -/
theorem C3_witness :
    (attack_hash hs0 "zz" [none, some ["abc", "123"]] ["md5"] "both" cfg0).found = false
    ∧ (attack_hash hs0 "zz" [none, some ["abc", "123"]] ["md5"] "both" cfg0).evaluated
        = allTasks "zz" [none, some ["abc", "123"]] ["md5"] "both" :=
  C3_exhaustion hs0 "zz" [none, some ["abc", "123"]] ["md5"] "both" cfg0 (by decide)

/-- C6 counterexample: the claim says a target whose length maps to no
known algorithm is skipped; but `"ab"` (length 2, unmapped, valid hex) is
attacked with the full supported algorithm set, because the resolver falls
back to the full set and the emptiness skip never fires. -/
theorem C6_counterexample :
    HASH_LENGTH_MAP.lookup ("ab".length) = none
    ∧ isHexTarget "ab"
    ∧ process_target hs0 none [some []] "both" cfg0 "ab"
        = TargetAction.attacked "ab" HASH_ALGORITHMS
            (attack_hash hs0 "ab" [some []] HASH_ALGORITHMS "both" cfg0) := by decide

/-- C6 (amended): a target containing a non-hex character is skipped with a
warning and the remaining targets are still processed (each target is
handled independently); but a target whose length maps to no known
algorithm is not skipped — the resolver never returns an empty set, so the
length-skip branch of the per-target loop is unreachable and such a target
is attacked with the full supported set. -/
theorem C6_per_target_validation_amended :
    (∀ (algo : Option String) (hash_length : Option Nat),
      get_algorithms algo hash_length ≠ [])
    ∧ (∀ (hash_string : String → String → String) (algo : Option String)
        (wordlists : List (Option (List String))) (mode : String) (cfg : ReportConfig)
        (target_hash : String),
        process_target hash_string algo wordlists mode cfg target_hash
          ≠ TargetAction.skippedLength target_hash)
    ∧ (∀ (hash_string : String → String → String) (algo : Option String)
        (wordlists : List (Option (List String))) (mode : String) (cfg : ReportConfig)
        (target_hash : String), ¬ isHexTarget target_hash →
        process_target hash_string algo wordlists mode cfg target_hash
          = TargetAction.skippedHex target_hash)
    ∧ (∀ (hash_string : String → String → String) (algo : Option String)
        (hash_length : Option Nat) (t : String) (rest : List String)
        (wordlists : List (Option (List String))) (mode : String) (cfg : ReportConfig),
        (main_run hash_string algo hash_length (t :: rest) wordlists mode cfg).2
          = process_target hash_string algo wordlists mode cfg t
            :: (main_run hash_string algo hash_length rest wordlists mode cfg).2) := by
  refine ⟨get_algorithms_ne_nil, ?_, ?_, ?_⟩
  · intro hash_string algo wordlists mode cfg target_hash
    simp only [process_target, if_neg (get_algorithms_ne_nil algo (some target_hash.length))]
    split <;> simp
  · intro hash_string algo wordlists mode cfg target_hash hhex
    simp [process_target, if_neg (get_algorithms_ne_nil algo (some target_hash.length)), hhex]
  · intro hash_string algo hash_length t rest wordlists mode cfg
    simp [main_run]

/-- C6 witness: the non-hex target `"zz"` is skipped at the hex check. -/
theorem C6_witness :
    ¬ isHexTarget "zz"
    ∧ process_target hs0 none [some []] "both" cfg0 "zz" = TargetAction.skippedHex "zz" :=
  ⟨by decide,
   C6_per_target_validation_amended.2.2.1 hs0 none [some []] "both" cfg0 "zz" (by decide)⟩

/-- A string with an uppercase hex letter is never equal to a string made
only of lowercase hex characters. -/
theorem ne_of_upper_of_lower (t s : String) (ht : hasUpperHexLetter t)
    (hs : isLowerHex s) : s ≠ t := by
  rintro rfl
  obtain ⟨c, hc, hcu⟩ := ht
  have hcl := hs c hc
  have hdisj : ∀ d ∈ UPPER_HEX_LETTERS, d ∉ LOWER_HEX_DIGITS := by decide
  exact hdisj c hcu hcl

/-- A unit whose target hash contains an uppercase hex letter can never
match when every digest the engine produces is lowercase hex. -/
theorem check_combination_none_of_upper (hash_string : String → String → String)
    (hd : ∀ s a, isLowerHex (hash_string s a)) (t : Task)
    (ht : hasUpperHexLetter t.target_hash) :
    check_combination hash_string t = none := by
  rw [check_combination, List.findSome?_eq_none_iff]
  intro combo _
  rw [if_neg (ne_of_upper_of_lower t.target_hash _ ht (hd combo t.algorithm))]

/-- C7: a hex target containing at least one uppercase letter A–F passes
the per-target hex validation (the target is attacked, not skipped), yet
the attack always reports found = false, for every wordlist collection,
algorithm set and mode, because every digest the engine produces is
lowercase hex and the per-unit comparison is exact string equality. -/
theorem C7_uppercase_target_never_found (hash_string : String → String → String)
    (hd : ∀ s a, isLowerHex (hash_string s a))
    (target_hash : String) (hupper : hasUpperHexLetter target_hash)
    (hhex : isHexTarget target_hash)
    (wordlists : List (Option (List String))) (algos : List String)
    (mode : String) (cfg : ReportConfig) (algo : Option String) :
    process_target hash_string algo wordlists mode cfg target_hash
      = TargetAction.attacked target_hash (get_algorithms algo (some target_hash.length))
          (attack_hash hash_string target_hash wordlists
            (get_algorithms algo (some target_hash.length)) mode cfg)
    ∧ (attack_hash hash_string target_hash wordlists algos mode cfg).found = false := by
  constructor
  · simp [process_target, if_neg (get_algorithms_ne_nil algo (some target_hash.length)), hhex]
  · have h : ∀ t ∈ allTasks target_hash wordlists algos mode,
        check_combination hash_string t = none := by
      intro t htl
      apply check_combination_none_of_upper hash_string hd
      have heq : t.target_hash = target_hash := by
        simp only [allTasks, List.mem_flatMap] at htl
        obtain ⟨w, hw, htw⟩ := htl
        rcases w with _ | lines
        · simp at htw
        · exact (mem_mkTasks _ _ _ _ _ htw).1
      rw [heq]
      exact hupper
    rw [attack_hash_no_match hash_string target_hash wordlists algos mode cfg h]

/-- A constant digest engine returning a lowercase hex string. -/
def hsLower : String → String → String := fun _ _ => "ab"

/-- C7 witness: target `"AB"` passes validation yet is never found under a
lowercase-hex digest engine. -/
theorem C7_witness :
    (attack_hash hsLower "AB" [some ["x"]] ["md5"] "both" cfg0).found = false :=
  (C7_uppercase_target_never_found hsLower
    (fun _ _ => show isLowerHex "ab" by decide) "AB" (by decide) (by decide)
    [some ["x"]] ["md5"] "both" cfg0 none).2

/-- C8: the configured `--hash-length` is consumed only by the line-247
resolver call whose result (the first component of `main_run`) is never
read by the per-target loop; two runs differing only in the configured
hash length process every target identically, because the algorithm set
actually tried is re-inferred per target from the forced algorithm and the
target's literal character length. -/
theorem C8_hash_length_noninterference (hash_string : String → String → String)
    (algo : Option String) (hl1 hl2 : Option Nat) (targets : List String)
    (wordlists : List (Option (List String))) (mode : String) (cfg : ReportConfig) :
    (main_run hash_string algo hl1 targets wordlists mode cfg).1 = get_algorithms algo hl1
    ∧ (main_run hash_string algo hl1 targets wordlists mode cfg).2
        = (main_run hash_string algo hl2 targets wordlists mode cfg).2 :=
  ⟨rfl, rfl⟩

/-- C9: a failing persistence write is caught and turned into a warning
(the write functions return normally with no saved output), and the
attack's found/not-found determination, recorded match and console report
are identical whether or not the text-log and JSON writes succeed. -/
theorem C9_persistence_failures_harmless (hash_string : String → String → String)
    (target_hash : String) (wordlists : List (Option (List String)))
    (algos : List String) (mode : String) (sf jf sfail1 jfail1 sfail2 jfail2 : Bool)
    (ts : String) (e : Rat) :
    (∀ timestamp algo fp gen, write_result true timestamp algo fp gen
        = (none, ["Could not save result"]))
    ∧ (∀ data, write_json true data = (none, ["Could not save JSON"]))
    ∧ ((attack_hash hash_string target_hash wordlists algos mode
          ⟨sf, jf, sfail1, jfail1, ts, e⟩).found
        = (attack_hash hash_string target_hash wordlists algos mode
            ⟨sf, jf, sfail2, jfail2, ts, e⟩).found
      ∧ (attack_hash hash_string target_hash wordlists algos mode
          ⟨sf, jf, sfail1, jfail1, ts, e⟩).matched
        = (attack_hash hash_string target_hash wordlists algos mode
            ⟨sf, jf, sfail2, jfail2, ts, e⟩).matched
      ∧ (attack_hash hash_string target_hash wordlists algos mode
          ⟨sf, jf, sfail1, jfail1, ts, e⟩).console
        = (attack_hash hash_string target_hash wordlists algos mode
            ⟨sf, jf, sfail2, jfail2, ts, e⟩).console) := by
  refine ⟨fun _ _ _ _ => rfl, fun _ => rfl, ?_⟩
  induction wordlists with
  | nil => exact ⟨rfl, rfl, rfl⟩
  | cons w rest ih =>
    rcases w with _ | lines
    · simpa only [attack_hash] using ih
    · rcases hr : runTasks hash_string (mkTasks algos (loadWords lines) target_hash mode)
        with ⟨r, ev⟩
      rcases r with _ | ⟨fp, algo⟩
      · simp only [attack_hash, hr]
        exact ih
      · simp [attack_hash, hr]

/-- C10: with a JSON path configured and the write succeeding, a found
outcome writes a document with exactly the fields found, hash, algorithm,
password, generated, elapsed_seconds, and a not-found outcome one with
exactly the fields found, hash, reason, elapsed_seconds; the found field
is the boolean outcome and elapsed_seconds is the non-negative elapsed
time. -/
theorem C10_json_record_schema (hash_string : String → String → String)
    (target_hash : String) (wordlists : List (Option (List String)))
    (algos : List String) (mode : String) (sf sfail : Bool) (ts : String) (e : Rat)
    (he : 0 ≤ e) :
    ((attack_hash hash_string target_hash wordlists algos mode
        ⟨sf, true, sfail, false, ts, e⟩).savedJson.map fun doc => doc.map Prod.fst)
      = some (if (attack_hash hash_string target_hash wordlists algos mode
            ⟨sf, true, sfail, false, ts, e⟩).found then
          ["found", "hash", "algorithm", "password", "generated", "elapsed_seconds"]
        else ["found", "hash", "reason", "elapsed_seconds"])
    ∧ ((attack_hash hash_string target_hash wordlists algos mode
          ⟨sf, true, sfail, false, ts, e⟩).savedJson.bind fun doc => doc.lookup "found")
        = some (JVal.bool (attack_hash hash_string target_hash wordlists algos mode
            ⟨sf, true, sfail, false, ts, e⟩).found)
    ∧ ((attack_hash hash_string target_hash wordlists algos mode
          ⟨sf, true, sfail, false, ts, e⟩).savedJson.bind
            fun doc => doc.lookup "elapsed_seconds")
        = some (JVal.num e)
    ∧ 0 ≤ e := by
  induction wordlists with
  | nil => exact ⟨rfl, rfl, rfl, he⟩
  | cons w rest ih =>
    rcases w with _ | lines
    · simpa only [attack_hash] using ih
    · rcases hr : runTasks hash_string (mkTasks algos (loadWords lines) target_hash mode)
        with ⟨r, ev⟩
      rcases r with _ | ⟨fp, algo⟩
      · simp only [attack_hash, hr]
        exact ih
      · exact ⟨by simp [attack_hash, hr, write_json, foundRecord],
              by simp [attack_hash, hr, write_json, foundRecord, List.lookup],
              by simp [attack_hash, hr, write_json, foundRecord, List.lookup], he⟩

/-- C10 witness: an exhausted attack over no wordlists with the JSON path
configured writes the not-found record with its four fields. -/
theorem C10_witness :
    ((attack_hash hs0 "aa" [] ["md5"] "both"
        ⟨false, true, false, false, "T", 0⟩).savedJson.map fun doc => doc.map Prod.fst)
      = some (if (attack_hash hs0 "aa" [] ["md5"] "both"
            ⟨false, true, false, false, "T", 0⟩).found then
          ["found", "hash", "algorithm", "password", "generated", "elapsed_seconds"]
        else ["found", "hash", "reason", "elapsed_seconds"])
    ∧ ((attack_hash hs0 "aa" [] ["md5"] "both"
          ⟨false, true, false, false, "T", 0⟩).savedJson.bind fun doc => doc.lookup "found")
        = some (JVal.bool (attack_hash hs0 "aa" [] ["md5"] "both"
            ⟨false, true, false, false, "T", 0⟩).found)
    ∧ ((attack_hash hs0 "aa" [] ["md5"] "both"
          ⟨false, true, false, false, "T", 0⟩).savedJson.bind
            fun doc => doc.lookup "elapsed_seconds")
        = some (JVal.num 0)
    ∧ (0 : Rat) ≤ 0 :=
  C10_json_record_schema hs0 "aa" [] ["md5"] "both" false false "T" 0 (by decide)

end Bruteforce
